import Mathlib

/-!
Verification of the B-tree backfill traversal (`src/btree/backfill.cc`).

This file gives a shallow embedding of the backfill subsystem: the session
state (`backfill_state_t`), the live-block counter (`num_live`), the root
bootstrap (`spawn_btree_backfill`), the recency-pruning child loop
(`subtrees_backfill`) and the per-child acquisition spawn
(`spawn_subtree_backfill`).

The traversal is concurrent in the source (one cooperative task per spawned
child).  We embed it as the event trace of the canonical cooperative
schedule: a spawning call runs to completion first (issuing acquisitions and
signalling/pulsing the per-child condition variables, then waiting on them
and releasing the parent, exactly in the program order of
`subtrees_backfill`), and the spawned child tasks run afterwards.  Ordering
facts stated below (a parent release following all child signals, and so on)
are forced by that program order.

Pieces of the repository that `backfill.cc` calls but that are not under
`src/` (`acquire_node`, `get_recency_timestamps`, the post-acquisition
continuation of `spawn_subtree_backfill`, the serializer constants
`SUPERBLOCK_ID` and `NULL_BLOCK_ID`) are modelled from the spec; each such
definition says so in its doc comment.
-/

namespace Backfill

/-- The source's `block_id_t`: an opaque identifier for a fixed-size on-disk block. -/
abbrev block_id_t := Nat

/-- The `repli_timestamp.time` field: the logical timestamp compared by the
recency filter (`recencies[i].time >= state.since_when.time`). -/
abbrev repli_timestamp := Nat

/-- Modelled from the spec: the superblock lives at its own fixed block id;
the serializer constant is not under `src/`. -/
def SUPERBLOCK_ID : block_id_t := 0

/-- Modelled from the spec: the sentinel block id meaning "no root" (empty
tree); the serializer constant (`block_id_t(-1)`) is not under `src/`. -/
def NULL_BLOCK_ID : block_id_t := 4294967295

/-- Source line 7: `#define BACKFILLING_MAX_BREADTH_FIRST_BLOCKS 50000`. -/
def BACKFILLING_MAX_BREADTH_FIRST_BLOCKS : Nat := 50000

/-- Source line 8: `#define BACKFILLING_MAX_PENDING_BLOCKS 40000`. -/
def BACKFILLING_MAX_PENDING_BLOCKS : Nat := 40000

/-- A leaf entry: key, value bytes, timestamp. -/
structure leaf_entry where
  key : Nat
  value : Nat
  timestamp : repli_timestamp
  deriving DecidableEq, Repr

/-- The on-disk B-tree under the superblock: an internal node's payload is
its ordered list of child block references, a leaf node's payload its
ordered entries.  Each node carries its own block id. -/
inductive btree where
  | leaf (id : block_id_t) (entries : List leaf_entry) : btree
  | node (id : block_id_t) (children : List btree) : btree

/-- The block id a tree node is stored at. -/
def btree.bid : btree → block_id_t
  | .leaf i _ => i
  | .node i _ => i

/-- The superblock payload: `btree_superblock_t.root_block` (src line 104). -/
structure btree_superblock_t where
  root_block : block_id_t
  deriving DecidableEq, Repr

/-- Observable events of a backfill session, in the order they happen. -/
inductive event where
  /-- one batched `get_recency_timestamps` request over a whole child list -/
  | recency_batch (ids : List block_id_t)
  /-- a pruned child's acquisition cond pulsed without issuing an
  acquisition (src line 126), or the cond of a child refused under
  shutdown mode -/
  | cond_pulse (id : block_id_t)
  /-- an acquisition request issued for the block; its acquisition cond is
  signalled at this point ("conds activated when we first try to acquire
  the children", src line 119) -/
  | acq_issue (id : block_id_t)
  /-- the acquisition completed: the session now holds the block's lock -/
  | acq_done (id : block_id_t)
  /-- the block's lock released -/
  | release (id : block_id_t)
  /-- a `callback->on_pair` call: a key/value/timestamp emitted to the callback -/
  | emit (key value : Nat) (timestamp : repli_timestamp)
  /-- the root block id read out of the superblock (src line 104) -/
  | read_root (id : block_id_t)
  deriving DecidableEq, Repr

/-- Whether an event signals the acquisition cond of block `i`: either the
prune-path pulse or the acquisition issue does. -/
def event.signals_cond (e : event) (i : block_id_t) : Bool :=
  match e with
  | .cond_pulse j => j == i
  | .acq_issue j => j == i
  | _ => false

/-- Modelled from the spec: `get_recency_timestamps` (declared in the btree
headers, not under `src/`) answers one batched request with one recency per
input block id, in input order.  `rec` is the provider's per-block subtree
recency. -/
def get_recency_timestamps (rec : block_id_t → repli_timestamp)
    (block_ids : List block_id_t) : List repli_timestamp :=
  block_ids.map rec

/-- Modelled from the spec: the events `acquire_node` (not under `src/`)
contributes when called for one child.  It signals the child's acquisition
cond as soon as the acquisition request is issued; once `shutdown_mode` is
set it issues no new acquisition and just signals the cond so the parent
can drain. -/
def acquire_node_events (shutdown_mode : Bool) (id : block_id_t) : List event :=
  if shutdown_mode then [.cond_pulse id] else [.acq_issue id]

/-- The synchronous part of `subtrees_backfill` (src lines 115-136), which
runs to completion before any spawned child task: one batched recency
request, then the per-child loop (`recencies[i].time >= since_when.time`
spawns the child, otherwise its cond is pulsed), then the waits on all the
conds, then `parent.release()`. -/
def subtrees_backfill_sync (since_when : repli_timestamp)
    (rec : block_id_t → repli_timestamp) (shutdown_mode : Bool)
    (parent : block_id_t) (block_ids : List block_id_t) : List event :=
  event.recency_batch block_ids ::
    (block_ids.map (fun i =>
      if since_when ≤ rec i then acquire_node_events shutdown_mode i
      else [event.cond_pulse i])).flatten
    ++ [event.release parent]

mutual

/-- Trace of one spawned `spawn_subtree_backfill` task (src lines 138-145)
once its acquisition completes.  The body past `acquire_node` is blank in
`src/`; the continuation is modelled from the spec: an internal node runs
`subtrees_backfill` on its own children with itself as parent (the
synchronous part below, which releases its lock, then the tasks it
spawned); a leaf emits its entries in stored order to the callback and
releases its lock. -/
def spawn_subtree_backfill_task (since_when : repli_timestamp)
    (rec : block_id_t → repli_timestamp) (shutdown_mode : Bool)
    (level : Nat) (t : btree) : List event :=
  match t with
  | .leaf i es =>
      event.acq_done i ::
        (es.map (fun e => event.emit e.key e.value e.timestamp))
        ++ [event.release i]
  | .node i cs =>
      event.acq_done i ::
        (subtrees_backfill_sync since_when rec shutdown_mode i (cs.map btree.bid)
          ++ spawned_tasks since_when rec shutdown_mode (level + 1) cs)
  termination_by structural t

/-- The spawned child tasks of one `subtrees_backfill` call, run in child
order after the synchronous part: a task was spawned only for a child that
passed the recency filter while shutdown mode was off. -/
def spawned_tasks (since_when : repli_timestamp)
    (rec : block_id_t → repli_timestamp) (shutdown_mode : Bool)
    (level : Nat) (cs : List btree) : List event :=
  match cs with
  | [] => []
  | c :: rest =>
      (if shutdown_mode = false ∧ since_when ≤ rec c.bid then
        spawn_subtree_backfill_task since_when rec shutdown_mode level c
      else [])
      ++ spawned_tasks since_when rec shutdown_mode level rest
  termination_by structural cs

end

/-- Trace of `subtrees_backfill(state, parent, level, block_ids, n)`
(src lines 115-136) on the child subtrees `cs`, in the cooperative
schedule: the synchronous part first (recency batch, spawn-or-pulse loop,
waits, parent release), then the spawned child tasks. -/
def subtrees_backfill (since_when : repli_timestamp)
    (rec : block_id_t → repli_timestamp) (shutdown_mode : Bool)
    (parent : block_id_t) (level : Nat) (cs : List btree) : List event :=
  subtrees_backfill_sync since_when rec shutdown_mode parent (cs.map btree.bid)
    ++ spawned_tasks since_when rec shutdown_mode level cs

/-- An internal node's task is its acquisition completing followed by
`subtrees_backfill` on its own children, with itself as the parent. -/
theorem spawn_subtree_backfill_task_node (since_when : repli_timestamp)
    (rec : block_id_t → repli_timestamp) (shutdown_mode : Bool)
    (level : Nat) (i : block_id_t) (cs : List btree) :
    spawn_subtree_backfill_task since_when rec shutdown_mode level (.node i cs)
      = event.acq_done i
          :: subtrees_backfill since_when rec shutdown_mode i (level + 1) cs :=
  rfl

/-- Result of `spawn_btree_backfill` (src lines 100-113): `none` when the
`rassert(root_id != SUPERBLOCK_ID)` fires, otherwise the session trace.
The superblock is acquired under its own `buf_lock_t`, the root block id is
read, and either the empty-tree special case returns at once (the RAII
`buf_lock_t` releasing the superblock on scope exit) or
`subtrees_backfill` is entered with the superblock lock as the parent.
`root` is the tree stored at `sb.root_block` when there is one. -/
def spawn_btree_backfill (since_when : repli_timestamp)
    (rec : block_id_t → repli_timestamp) (shutdown_mode : Bool)
    (sb : btree_superblock_t) (root : btree) : Option (List event) :=
  if sb.root_block = SUPERBLOCK_ID then
    none
  else if sb.root_block = NULL_BLOCK_ID then
    some [event.acq_issue SUPERBLOCK_ID, event.acq_done SUPERBLOCK_ID,
          event.read_root sb.root_block, event.release SUPERBLOCK_ID]
  else
    some ([event.acq_issue SUPERBLOCK_ID, event.acq_done SUPERBLOCK_ID,
           event.read_root sb.root_block]
      ++ subtrees_backfill since_when rec shutdown_mode SUPERBLOCK_ID 0 [root])

/-- The session state `backfill_state_t` (src lines 61-86): the fields the
counting claims are about. -/
structure backfill_state_t where
  since_when : repli_timestamp
  /-- the `std::vector< std::vector<buf_t *> > held_blocks` field: blocks currently
  held, organized by level -/
  held_blocks : List (List block_id_t)
  /-- the `int num_pending_blocks` field: blocks currently loading -/
  num_pending_blocks : Int
  /-- the `bool shutdown_mode` field -/
  shutdown_mode : Bool

/-- The function `num_live` (src lines 88-95): the for loop summing the per-level held
list sizes, plus `num_pending_blocks`. -/
def num_live (state : backfill_state_t) : Int :=
  (state.held_blocks.foldl (fun ret lvl => ret + (lvl.length : Int)) 0)
    + state.num_pending_blocks

/-- The spec's `held_count`: the sum of the sizes of all
per-level held-block lists. -/
def held_count (state : backfill_state_t) : Int :=
  (state.held_blocks.map (fun lvl => (lvl.length : Int))).sum

mutual

/-- All block ids stored in a tree. -/
def btree.ids : btree → List block_id_t
  | .leaf i _ => [i]
  | .node i cs => i :: btree.ids_forest cs
  termination_by structural t => t

/-- All block ids stored in a list of trees. -/
def btree.ids_forest : List btree → List block_id_t
  | [] => []
  | c :: rest => btree.ids c ++ btree.ids_forest rest
  termination_by structural cs => cs

end

/-- Modelled from the spec: a well-formed disk either has no root
(`NULL_BLOCK_ID` in the superblock) or stores the root tree at the
superblock's `root_block`, with every tree block allocated at an id that is
neither the superblock's own id nor the null sentinel. -/
def disk_wf (sb : btree_superblock_t) (root : btree) : Prop :=
  sb.root_block = NULL_BLOCK_ID ∨
    (sb.root_block = root.bid ∧ SUPERBLOCK_ID ∉ root.ids ∧
      NULL_BLOCK_ID ∉ root.ids)

/-- Whether an event releases some block's lock. -/
def event.is_release : event → Bool
  | .release _ => true
  | _ => false

/-- Whether an event is a completed acquisition (a lock obtained). -/
def event.is_acq_done : event → Bool
  | .acq_done _ => true
  | _ => false

/-- Whether an event emits a key/value pair to the callback. -/
def event.is_emit : event → Bool
  | .emit _ _ _ => true
  | _ => false

/-- Number of completed acquisitions (locks obtained) in a trace. -/
def count_acquired (tr : List event) : Nat :=
  tr.countP event.is_acq_done

/-- Number of lock releases in a trace. -/
def count_released (tr : List event) : Nat :=
  tr.countP event.is_release

/-- Number of key/value pairs emitted to the callback in a trace. -/
def count_emits (tr : List event) : Nat :=
  tr.countP event.is_emit

/-- The batched recency requests appearing in a trace, in order. -/
def recency_batches (tr : List event) : List (List block_id_t) :=
  tr.filterMap (fun e => match e with
    | .recency_batch ids => some ids
    | _ => none)

/-- Net change a single event makes to `held_count + pending_count`:
issuing an acquisition adds a pending block; its completion moves it from
pending to held (net zero); a release drops a held block. -/
def live_delta : event → Int
  | .acq_issue _ => 1
  | .acq_done _ => 0
  | .release _ => -1
  | _ => 0

/-- Running `held_count + pending_count` after a trace (prefix of a session),
starting from zero. -/
def live_after (tr : List event) : Int :=
  (tr.map live_delta).sum

/-! ## Helper lemmas -/

theorem foldl_add_length (ls : List (List block_id_t)) (a : Int) :
    ls.foldl (fun ret lvl => ret + (lvl.length : Int)) a
      = a + (ls.map (fun lvl => (lvl.length : Int))).sum := by
  induction ls generalizing a with
  | nil => simp
  | cons l ls ih => simp [List.foldl_cons, ih]; ring

theorem bid_mem_ids (t : btree) : t.bid ∈ t.ids := by
  cases t with
  | leaf i es => simp [btree.ids, btree.bid]
  | node i cs => simp [btree.ids, btree.bid]

theorem countP_flatten_map {α β : Type} (p : β → Bool) (f : α → List β)
    (l : List α) (h : ∀ a ∈ l, (f a).countP p = 0) :
    ((l.map f).flatten).countP p = 0 := by
  induction l with
  | nil => simp
  | cons a l ih =>
      simp only [List.map_cons, List.flatten_cons, List.countP_append]
      rw [h a (by simp), ih (fun b hb => h b (by simp [hb]))]

theorem flatten_map_singleton {α β : Type} (f : α → β) (l : List α) :
    (l.map (fun a => [f a])).flatten = l.map f := by
  induction l with
  | nil => rfl
  | cons a l ih => simp [ih]

theorem zip_map_self {α β : Type} (f : α → β) (l : List α) :
    l.zip (l.map f) = l.map (fun a => (a, f a)) := by
  induction l with
  | nil => rfl
  | cons a l ih => simp [ih]

theorem countP_map_zero {α : Type} (p : event → Bool) (f : α → event)
    (l : List α) (h : ∀ a, p (f a) = false) : (l.map f).countP p = 0 := by
  induction l with
  | nil => rfl
  | cons a l ih => simp [List.countP_cons, h, ih]

/-- A live child's acquisition is issued during the synchronous loop. -/
theorem acq_issue_mem_sync_of_live (since_when : repli_timestamp)
    (rec : block_id_t → repli_timestamp) (parent : block_id_t)
    (ids : List block_id_t) (i : block_id_t)
    (h1 : i ∈ ids) (h2 : since_when ≤ rec i) :
    event.acq_issue i ∈ subtrees_backfill_sync since_when rec false parent ids := by
  unfold subtrees_backfill_sync
  refine List.mem_cons_of_mem _ (List.mem_append_left _ ?_)
  rw [List.mem_flatten]
  refine ⟨[event.acq_issue i], List.mem_map.mpr ⟨i, h1, ?_⟩, by simp⟩
  rw [if_pos h2]
  rfl

/-- A pruned child's cond is pulsed during the synchronous loop. -/
theorem cond_pulse_mem_sync_of_pruned (since_when : repli_timestamp)
    (rec : block_id_t → repli_timestamp) (shutdown_mode : Bool)
    (parent : block_id_t) (ids : List block_id_t) (i : block_id_t)
    (h1 : i ∈ ids) (h2 : rec i < since_when) :
    event.cond_pulse i
      ∈ subtrees_backfill_sync since_when rec shutdown_mode parent ids := by
  unfold subtrees_backfill_sync
  refine List.mem_cons_of_mem _ (List.mem_append_left _ ?_)
  rw [List.mem_flatten]
  refine ⟨[event.cond_pulse i], List.mem_map.mpr ⟨i, h1, ?_⟩, by simp⟩
  rw [if_neg (not_le.mpr h2)]

/-- The synchronous loop only issues acquisitions for children whose
recency reaches the horizon. -/
theorem sync_acq_issue_recent {since_when : repli_timestamp}
    {rec : block_id_t → repli_timestamp} {shutdown_mode : Bool}
    {parent : block_id_t} {ids : List block_id_t} {i : block_id_t}
    (h : event.acq_issue i
      ∈ subtrees_backfill_sync since_when rec shutdown_mode parent ids) :
    since_when ≤ rec i := by
  unfold subtrees_backfill_sync at h
  rcases List.mem_cons.mp h with h | h
  · exact absurd h (by simp)
  rcases List.mem_append.mp h with h | h
  · obtain ⟨l, hl, hel⟩ := List.mem_flatten.mp h
    obtain ⟨j, hj, rfl⟩ := List.mem_map.mp hl
    by_cases hc : since_when ≤ rec j
    · rw [if_pos hc] at hel
      unfold acquire_node_events at hel
      cases shutdown_mode with
      | true => simp at hel
      | false =>
          rw [if_neg (by simp)] at hel
          rw [List.mem_singleton] at hel
          obtain ⟨rfl⟩ := event.acq_issue.injEq .. ▸ hel
          exact hc
    · rw [if_neg hc] at hel
      simp at hel
  · simp at h

/-- With shutdown mode on, `acquire_node` signals the cond without
issuing, so the per-child loop pulses every cond whichever way the
recency check goes. -/
theorem sync_shutdown_eq (since_when : repli_timestamp)
    (rec : block_id_t → repli_timestamp) (parent : block_id_t)
    (ids : List block_id_t) :
    subtrees_backfill_sync since_when rec true parent ids
      = event.recency_batch ids :: ids.map event.cond_pulse
          ++ [event.release parent] := by
  unfold subtrees_backfill_sync
  have h : ids.map (fun i =>
      if since_when ≤ rec i then acquire_node_events true i
      else [event.cond_pulse i]) = ids.map (fun i => [event.cond_pulse i]) := by
    apply List.map_congr_left
    intro i _
    unfold acquire_node_events
    split <;> rfl
  rw [h, flatten_map_singleton]

theorem spawned_tasks_shutdown (since_when : repli_timestamp)
    (rec : block_id_t → repli_timestamp) (level : Nat) (cs : List btree) :
    spawned_tasks since_when rec true level cs = [] := by
  induction cs with
  | nil => simp [spawned_tasks]
  | cons c rest ih =>
      rw [spawned_tasks, ih]
      simp

/-- No acquisition is ever issued, anywhere in the spawned phase of a call
(descendants included), for a block whose recency misses the horizon. -/
theorem spawned_tasks_acq_issue_recent (since_when : repli_timestamp)
    (rec : block_id_t → repli_timestamp) (shutdown_mode : Bool) :
    ∀ (n : Nat) (cs : List btree), sizeOf cs ≤ n → ∀ (level : Nat) (i : block_id_t),
      event.acq_issue i ∈ spawned_tasks since_when rec shutdown_mode level cs →
      since_when ≤ rec i := by
  intro n
  induction n with
  | zero =>
      intro cs hcs level i h
      exfalso
      cases cs with
      | nil => simp [spawned_tasks] at h
      | cons c rest => simp only [List.cons.sizeOf_spec] at hcs; omega
  | succ n ih =>
      intro cs hcs level i h
      cases cs with
      | nil => simp [spawned_tasks] at h
      | cons c rest =>
          rw [spawned_tasks] at h
          rcases List.mem_append.mp h with h | h
          · split at h
            · cases c with
              | leaf j es =>
                  rw [spawn_subtree_backfill_task] at h
                  rcases List.mem_cons.mp h with h | h
                  · exact absurd h (by simp)
                  rcases List.mem_append.mp h with h | h
                  · obtain ⟨a, _, ha⟩ := List.mem_map.mp h
                    exact absurd ha (by simp)
                  · simp at h
              | node j cs2 =>
                  rw [spawn_subtree_backfill_task] at h
                  rcases List.mem_cons.mp h with h | h
                  · exact absurd h (by simp)
                  rcases List.mem_append.mp h with h | h
                  · exact sync_acq_issue_recent h
                  · refine ih cs2 ?_ (level + 1) i h
                    simp only [List.cons.sizeOf_spec, btree.node.sizeOf_spec] at hcs
                    omega
            · simp at h
          · refine ih rest ?_ level i h
            simp only [List.cons.sizeOf_spec] at hcs
            omega

/-- A whole `subtrees_backfill` call only ever issues acquisitions for
blocks whose recency reaches the horizon. -/
theorem subtrees_acq_issue_recent {since_when : repli_timestamp}
    {rec : block_id_t → repli_timestamp} {shutdown_mode : Bool}
    {parent : block_id_t} {level : Nat} {cs : List btree} {i : block_id_t}
    (h : event.acq_issue i
      ∈ subtrees_backfill since_when rec shutdown_mode parent level cs) :
    since_when ≤ rec i := by
  unfold subtrees_backfill at h
  rcases List.mem_append.mp h with h | h
  · exact sync_acq_issue_recent h
  · exact spawned_tasks_acq_issue_recent since_when rec shutdown_mode
      (sizeOf cs) cs le_rfl level i h

/-! ## Claim theorems -/

/-- C9: `num_live` returns exactly `held_count + pending_count`, where
`held_count` is the sum of the sizes of the per-level held-block lists. -/
theorem num_live_eq_held_plus_pending (state : backfill_state_t) :
    num_live state = held_count state + state.num_pending_blocks := by
  unfold num_live held_count
  rw [foldl_add_length]
  ring

/-- C5: when the superblock holds no root block id, the session emits zero
key/value pairs and terminates successfully at once: the trace is just the
superblock acquire, the root read and the superblock release. -/
theorem empty_tree_emits_nothing (since_when : repli_timestamp)
    (rec : block_id_t → repli_timestamp) (shutdown_mode : Bool)
    (sb : btree_superblock_t) (root : btree)
    (h : sb.root_block = NULL_BLOCK_ID) :
    ∃ tr, spawn_btree_backfill since_when rec shutdown_mode sb root = some tr
      ∧ count_emits tr = 0 := by
  have hne : sb.root_block ≠ SUPERBLOCK_ID := by
    rw [h]; decide
  refine ⟨[event.acq_issue SUPERBLOCK_ID, event.acq_done SUPERBLOCK_ID,
           event.read_root sb.root_block, event.release SUPERBLOCK_ID], ?_, rfl⟩
  unfold spawn_btree_backfill
  rw [if_neg hne, if_pos h]

/-- Witness for C5 at a concrete superblock. -/
theorem empty_tree_emits_nothing_witness :
    ∃ tr, spawn_btree_backfill 4 (fun _ => 9) false
        ⟨NULL_BLOCK_ID⟩ (btree.leaf 1 []) = some tr ∧ count_emits tr = 0 :=
  empty_tree_emits_nothing 4 (fun _ => 9) false ⟨NULL_BLOCK_ID⟩
    (btree.leaf 1 []) rfl

/-- C10: on a well-formed disk the root block id read from the superblock
never equals `SUPERBLOCK_ID`, so the `rassert(root_id != SUPERBLOCK_ID)`
in the bootstrap never fires (the run never returns `none`). -/
theorem root_rassert_never_fires (since_when : repli_timestamp)
    (rec : block_id_t → repli_timestamp) (shutdown_mode : Bool)
    (sb : btree_superblock_t) (root : btree) (h : disk_wf sb root) :
    (spawn_btree_backfill since_when rec shutdown_mode sb root).isSome = true := by
  have hne : sb.root_block ≠ SUPERBLOCK_ID := by
    rcases h with h | ⟨h1, h2, _⟩
    · rw [h]; decide
    · rw [h1]
      intro hc
      exact h2 (hc ▸ bid_mem_ids root)
  unfold spawn_btree_backfill
  rw [if_neg hne]
  split <;> rfl

/-- Witness for C10 at a concrete well-formed disk. -/
theorem root_rassert_never_fires_witness :
    (spawn_btree_backfill 3 (fun _ => 7) false ⟨1⟩
        (btree.node 1 [btree.leaf 2 []])).isSome = true :=
  root_rassert_never_fires 3 (fun _ => 7) false ⟨1⟩
    (btree.node 1 [btree.leaf 2 []]) (by right; refine ⟨rfl, ?_, ?_⟩ <;> decide)

/-- C6: with `shutdown_mode` set, `subtrees_backfill` issues no new
acquisitions and starts no recursion into child subtrees: the whole trace
is the batched recency request, a cond pulse per child (so in-flight waits
drain) and the parent release; the spawned-task phase is empty. -/
theorem shutdown_mode_stops_spawning (since_when : repli_timestamp)
    (rec : block_id_t → repli_timestamp) (parent : block_id_t)
    (level : Nat) (cs : List btree) :
    subtrees_backfill since_when rec true parent level cs
      = event.recency_batch (cs.map btree.bid)
          :: (cs.map btree.bid).map event.cond_pulse
          ++ [event.release parent] ∧
    spawned_tasks since_when rec true level cs = [] ∧
    (∀ i, event.acq_issue i ∉ subtrees_backfill since_when rec true parent level cs) ∧
    (∀ i, event.acq_done i ∉ subtrees_backfill since_when rec true parent level cs) := by
  have htr : subtrees_backfill since_when rec true parent level cs
      = event.recency_batch (cs.map btree.bid)
          :: (cs.map btree.bid).map event.cond_pulse
          ++ [event.release parent] := by
    rw [subtrees_backfill, sync_shutdown_eq, spawned_tasks_shutdown]
    simp
  refine ⟨htr, spawned_tasks_shutdown since_when rec level cs, ?_, ?_⟩ <;>
    · intro i hmem
      rw [htr] at hmem
      simp at hmem

/-- C1: for every parent and every child block reference in its list, a
child whose subtree recency reaches `since_when` has an acquisition
spawned for it (its `acq_issue` appears in the call's trace); a child
below the horizon is pruned: its completion token is pulsed during the
synchronous loop itself, and no acquisition is ever issued for it
anywhere in the call, spawned descendants included. -/
theorem recency_filter_spawns_or_prunes
    (since_when : repli_timestamp) (rec : block_id_t → repli_timestamp)
    (parent : block_id_t) (level : Nat) (cs : List btree) (i : block_id_t)
    (hi : i ∈ cs.map btree.bid) :
    (since_when ≤ rec i →
      event.acq_issue i
        ∈ subtrees_backfill since_when rec false parent level cs) ∧
    (rec i < since_when →
      event.cond_pulse i
        ∈ subtrees_backfill_sync since_when rec false parent (cs.map btree.bid) ∧
      event.acq_issue i
        ∉ subtrees_backfill since_when rec false parent level cs) := by
  constructor
  · intro h2
    unfold subtrees_backfill
    exact List.mem_append_left _
      (acq_issue_mem_sync_of_live since_when rec parent (cs.map btree.bid) i hi h2)
  · intro h2
    refine ⟨cond_pulse_mem_sync_of_pruned since_when rec false parent
      (cs.map btree.bid) i hi h2, fun hmem => ?_⟩
    exact absurd (subtrees_acq_issue_recent hmem) (not_le.mpr h2)

/-- The child list used by the C1 witness: block 2 is recent enough at
horizon 5, block 3 is not. -/
def c1_children : List btree := [btree.leaf 2 [], btree.leaf 3 []]

/-- Subtree recencies for the C1 witness. -/
def c1_rec : block_id_t → repli_timestamp := fun i => if i = 2 then 10 else 0

/-- Witness for C1 at a concrete parent with one live and one pruned
child. -/
theorem recency_filter_spawns_or_prunes_witness :
    event.acq_issue 2 ∈ subtrees_backfill 5 c1_rec false 1 0 c1_children ∧
    event.cond_pulse 3
      ∈ subtrees_backfill_sync 5 c1_rec false 1 (c1_children.map btree.bid) ∧
    event.acq_issue 3 ∉ subtrees_backfill 5 c1_rec false 1 0 c1_children :=
  ⟨(recency_filter_spawns_or_prunes 5 c1_rec 1 0 c1_children 2 (by decide)).1
      (by decide),
   ((recency_filter_spawns_or_prunes 5 c1_rec 1 0 c1_children 3 (by decide)).2
      (by decide)).1,
   ((recency_filter_spawns_or_prunes 5 c1_rec 1 0 c1_children 3 (by decide)).2
      (by decide)).2⟩

/-- C2: in every `subtrees_backfill` call the trace splits as a front part
followed by the parent release: the front contains no release of any lock,
and the completion token of every child (pruned or spawned) is signalled
inside the front — so the parent's lock is released only after every child
has been pruned or has reached acquisition-pending. -/
theorem parent_release_after_all_child_conds (since_when : repli_timestamp)
    (rec : block_id_t → repli_timestamp) (shutdown_mode : Bool)
    (parent : block_id_t) (level : Nat) (cs : List btree) :
    ∃ front tail,
      subtrees_backfill since_when rec shutdown_mode parent level cs
        = front ++ event.release parent :: tail ∧
      (∀ e ∈ front, e.is_release = false) ∧
      (∀ i ∈ cs.map btree.bid, ∃ e ∈ front, e.signals_cond i = true) := by
  refine ⟨event.recency_batch (cs.map btree.bid) ::
      ((cs.map btree.bid).map (fun i =>
        if since_when ≤ rec i then acquire_node_events shutdown_mode i
        else [event.cond_pulse i])).flatten,
    spawned_tasks since_when rec shutdown_mode level cs, ?_, ?_, ?_⟩
  · unfold subtrees_backfill subtrees_backfill_sync
    simp
  · intro e he
    rcases List.mem_cons.mp he with rfl | he
    · rfl
    obtain ⟨l, hl, hel⟩ := List.mem_flatten.mp he
    obtain ⟨j, _, rfl⟩ := List.mem_map.mp hl
    by_cases hc : since_when ≤ rec j
    · rw [if_pos hc] at hel
      unfold acquire_node_events at hel
      cases shutdown_mode with
      | true => rw [if_pos rfl, List.mem_singleton] at hel; subst hel; rfl
      | false => rw [if_neg (by simp), List.mem_singleton] at hel; subst hel; rfl
    · rw [if_neg hc, List.mem_singleton] at hel
      subst hel
      rfl
  · intro i hi
    have hsig : ∃ e ∈ (if since_when ≤ rec i then
        acquire_node_events shutdown_mode i else [event.cond_pulse i]),
        e.signals_cond i = true := by
      by_cases hc : since_when ≤ rec i
      · rw [if_pos hc]
        unfold acquire_node_events
        cases shutdown_mode with
        | true => exact ⟨event.cond_pulse i, by simp, by simp [event.signals_cond]⟩
        | false => exact ⟨event.acq_issue i, by simp, by simp [event.signals_cond]⟩
      · rw [if_neg hc]
        exact ⟨event.cond_pulse i, by simp, by simp [event.signals_cond]⟩
    obtain ⟨e, he, hs⟩ := hsig
    exact ⟨e, List.mem_cons_of_mem _
      (List.mem_flatten.mpr ⟨_, List.mem_map.mpr ⟨i, hi, rfl⟩, he⟩), hs⟩

/-- C8: each `subtrees_backfill` call makes exactly one batched recency
request to the provider, covering the whole child list in stored order;
the modelled provider answers with one recency per input id, in the same
order as the input ids. -/
theorem recency_batched_once_per_parent (since_when : repli_timestamp)
    (rec : block_id_t → repli_timestamp) (shutdown_mode : Bool)
    (parent : block_id_t) (ids : List block_id_t) :
    recency_batches (subtrees_backfill_sync since_when rec shutdown_mode parent ids)
      = [ids] ∧
    (get_recency_timestamps rec ids).length = ids.length ∧
    ids.zip (get_recency_timestamps rec ids) = ids.map (fun i => (i, rec i)) := by
  refine ⟨?_, by simp [get_recency_timestamps], zip_map_self rec ids⟩
  unfold recency_batches subtrees_backfill_sync
  rw [List.cons_append, List.filterMap_cons]
  have hnil : ((ids.map (fun i =>
      if since_when ≤ rec i then acquire_node_events shutdown_mode i
      else [event.cond_pulse i])).flatten ++ [event.release parent]).filterMap
        (fun e => match e with
          | event.recency_batch l => some l
          | _ => none) = [] := by
    rw [List.filterMap_eq_nil_iff]
    intro e he
    rcases List.mem_append.mp he with he | he
    · obtain ⟨l, hl, hel⟩ := List.mem_flatten.mp he
      obtain ⟨j, _, rfl⟩ := List.mem_map.mp hl
      by_cases hc : since_when ≤ rec j
      · rw [if_pos hc] at hel
        unfold acquire_node_events at hel
        cases shutdown_mode with
        | true => rw [if_pos rfl, List.mem_singleton] at hel; subst hel; rfl
        | false => rw [if_neg (by simp), List.mem_singleton] at hel; subst hel; rfl
      · rw [if_neg hc, List.mem_singleton] at hel
        subst hel
        rfl
    · rw [List.mem_singleton] at he
      subst he
      rfl
  rw [hnil]

/-- The synchronous part of a call releases exactly one lock: the
parent's. -/
theorem sync_countP_release (since_when : repli_timestamp)
    (rec : block_id_t → repli_timestamp) (shutdown_mode : Bool)
    (parent : block_id_t) (ids : List block_id_t) :
    (subtrees_backfill_sync since_when rec shutdown_mode parent ids).countP
      event.is_release = 1 := by
  unfold subtrees_backfill_sync
  rw [List.cons_append, List.countP_cons, List.countP_append]
  rw [countP_flatten_map _ _ _ ?_]
  · rfl
  · intro j _
    by_cases hc : since_when ≤ rec j
    · rw [if_pos hc]
      unfold acquire_node_events
      cases shutdown_mode <;> rfl
    · rw [if_neg hc]
      rfl

/-- The synchronous part of a call completes no acquisition itself. -/
theorem sync_countP_acq_done (since_when : repli_timestamp)
    (rec : block_id_t → repli_timestamp) (shutdown_mode : Bool)
    (parent : block_id_t) (ids : List block_id_t) :
    (subtrees_backfill_sync since_when rec shutdown_mode parent ids).countP
      event.is_acq_done = 0 := by
  unfold subtrees_backfill_sync
  rw [List.cons_append, List.countP_cons, List.countP_append]
  rw [countP_flatten_map _ _ _ ?_]
  · rfl
  · intro j _
    by_cases hc : since_when ≤ rec j
    · rw [if_pos hc]
      unfold acquire_node_events
      cases shutdown_mode <;> rfl
    · rw [if_neg hc]
      rfl

/-- Each spawned task, and each spawned-task phase, completes exactly as
many acquisitions as it releases: every lock a task obtains is released by
the task tree under it. -/
theorem task_and_spawned_balanced (since_when : repli_timestamp)
    (rec : block_id_t → repli_timestamp) (shutdown_mode : Bool) (n : Nat) :
    (∀ (t : btree), sizeOf t ≤ n → ∀ (level : Nat),
        (spawn_subtree_backfill_task since_when rec shutdown_mode level t).countP
            event.is_release
          = (spawn_subtree_backfill_task since_when rec shutdown_mode level t).countP
            event.is_acq_done) ∧
    (∀ (cs : List btree), sizeOf cs ≤ n → ∀ (level : Nat),
        (spawned_tasks since_when rec shutdown_mode level cs).countP
            event.is_release
          = (spawned_tasks since_when rec shutdown_mode level cs).countP
            event.is_acq_done) := by
  induction n with
  | zero =>
      constructor
      · intro t ht
        exfalso
        cases t <;> simp only [btree.leaf.sizeOf_spec, btree.node.sizeOf_spec] at ht <;> omega
      · intro cs hcs
        exfalso
        cases cs <;> simp only [List.nil.sizeOf_spec, List.cons.sizeOf_spec] at hcs <;> omega
  | succ n ih =>
      constructor
      · intro t ht level
        cases t with
        | leaf j es =>
            rw [spawn_subtree_backfill_task]
            rw [List.cons_append, List.countP_cons, List.countP_cons,
              List.countP_append, List.countP_append]
            rw [countP_map_zero event.is_release
                (fun e => event.emit e.key e.value e.timestamp) es (fun a => rfl),
              countP_map_zero event.is_acq_done
                (fun e => event.emit e.key e.value e.timestamp) es (fun a => rfl)]
            rfl
        | node j cs2 =>
            rw [spawn_subtree_backfill_task]
            have h2 : sizeOf cs2 ≤ n := by
              simp only [btree.node.sizeOf_spec] at ht
              omega
            have hb := ih.2 cs2 h2 (level + 1)
            rw [List.countP_cons, List.countP_cons, List.countP_append,
              List.countP_append, sync_countP_release, sync_countP_acq_done, hb]
            simp [event.is_release, event.is_acq_done]
            omega
      · intro cs hcs level
        cases cs with
        | nil => rfl
        | cons c rest =>
            rw [spawned_tasks]
            have hr : sizeOf rest ≤ n := by
              simp only [List.cons.sizeOf_spec] at hcs
              omega
            have hc1 : sizeOf c ≤ n := by
              simp only [List.cons.sizeOf_spec] at hcs
              omega
            have hrest := ih.2 rest hr level
            rw [List.countP_append, List.countP_append, hrest]
            split
            · rw [ih.1 c hc1 level]
            · rfl

/-- A full `subtrees_backfill` call releases one lock more than it
completes acquisitions: the extra release is the parent's, acquired by the
caller. -/
theorem subtrees_backfill_balance (since_when : repli_timestamp)
    (rec : block_id_t → repli_timestamp) (shutdown_mode : Bool)
    (parent : block_id_t) (level : Nat) (cs : List btree) :
    count_released (subtrees_backfill since_when rec shutdown_mode parent level cs)
      = count_acquired (subtrees_backfill since_when rec shutdown_mode parent level cs)
        + 1 := by
  unfold subtrees_backfill count_released count_acquired
  rw [List.countP_append, List.countP_append, sync_countP_release,
    sync_countP_acq_done,
    (task_and_spawned_balanced since_when rec shutdown_mode (sizeOf cs)).2
      cs le_rfl level]
  omega

/-- C4: on every exit path of the session (empty tree included), every
block the session acquired is released exactly once by session end: the
count of completed acquisitions in the session trace equals the count of
releases. -/
theorem session_acquire_release_balanced (since_when : repli_timestamp)
    (rec : block_id_t → repli_timestamp) (shutdown_mode : Bool)
    (sb : btree_superblock_t) (root : btree) (tr : List event)
    (h : spawn_btree_backfill since_when rec shutdown_mode sb root = some tr) :
    count_acquired tr = count_released tr := by
  unfold spawn_btree_backfill at h
  split at h
  · exact absurd h (by simp)
  · split at h
    · injection h with h
      subst h
      rfl
    · injection h with h
      subst h
      have hb := subtrees_backfill_balance since_when rec shutdown_mode
        SUPERBLOCK_ID 0 [root]
      unfold count_released count_acquired at hb ⊢
      simp only [List.cons_append, List.nil_append, List.countP_cons]
      simp [event.is_release, event.is_acq_done]
      omega

/-- The C4 witness input: a two-level tree with one live leaf. -/
def c4_tree : btree := btree.node 1 [btree.leaf 2 [⟨5, 6, 12⟩]]

/-- The C4 witness session trace: every acquisition (superblock, root,
leaf) is matched by a release. -/
def c4_trace : List event :=
  [event.acq_issue 0, event.acq_done 0, event.read_root 1,
   event.recency_batch [1], event.acq_issue 1, event.release 0,
   event.acq_done 1, event.recency_batch [2], event.acq_issue 2,
   event.release 1, event.acq_done 2, event.emit 5 6 12, event.release 2]

/-- Witness for C4 at a concrete session. -/
theorem session_acquire_release_balanced_witness :
    count_acquired c4_trace = count_released c4_trace :=
  session_acquire_release_balanced 8 (fun _ => 12) false ⟨1⟩ c4_tree c4_trace
    (by decide)

theorem sum_map_one {α : Type} (l : List α) :
    (l.map (fun _ => (1 : Int))).sum = l.length := by
  induction l with
  | nil => rfl
  | cons a l ih => simp [ih]; omega

theorem live_after_append (a b : List event) :
    live_after (a ++ b) = live_after a + live_after b := by
  unfold live_after
  rw [List.map_append, List.sum_append]

/-- The C3 failing input's fan-out: more children than the breadth
cap admits. -/
def big_n : Nat := 50010

/-- The C3 failing input: the root's children, all leaves, all with
recency at or after the horizon `since_when = 0`. -/
def big_children : List btree :=
  (List.range big_n).map (fun k => btree.leaf (k + 2) [])

/-- The child block ids of the C3 failing input, in stored order. -/
def big_ids : List block_id_t := (List.range big_n).map (fun k => k + 2)

/-- The C3 failing input: a root internal node with `big_n` children. -/
def big_tree : btree := btree.node 1 big_children

/-- The C3 session: backfill of `big_tree` from horizon 0 (everything
live). -/
def big_run : Option (List event) :=
  spawn_btree_backfill 0 (fun _ => 0) false ⟨1⟩ big_tree

/-- The instant just after the driver has issued acquisitions for all
`big_n` children of the root, the root still held. -/
def big_issue_point : List event :=
  [event.acq_issue 0, event.acq_done 0, event.read_root 1,
   event.recency_batch [1], event.acq_issue 1, event.release 0,
   event.acq_done 1, event.recency_batch big_ids]
    ++ big_ids.map event.acq_issue

theorem big_map_bid : big_children.map btree.bid = big_ids := by
  unfold big_children big_ids
  rw [List.map_map]
  rfl

theorem big_sync_eq :
    subtrees_backfill_sync 0 (fun _ => 0) false 1 big_ids
      = event.recency_batch big_ids :: big_ids.map event.acq_issue
          ++ [event.release 1] := by
  unfold subtrees_backfill_sync
  have h : big_ids.map (fun i =>
      if 0 ≤ (fun _ => 0 : block_id_t → repli_timestamp) i then
        acquire_node_events false i
      else [event.cond_pulse i]) = big_ids.map (fun i => [event.acq_issue i]) := by
    apply List.map_congr_left
    intro i _
    rw [if_pos (Nat.zero_le _)]
    rfl
  rw [h, flatten_map_singleton]

/-- The C3 session reaches `big_issue_point` as a trace position: the
driver issues all `big_n` child acquisitions with no cap check anywhere
before or between them. -/
theorem big_run_eq :
    big_run = some (big_issue_point
      ++ (event.release 1 :: spawned_tasks 0 (fun _ => 0) false 1 big_children)) := by
  unfold big_run spawn_btree_backfill
  rw [if_neg (by decide), if_neg (by decide), Option.some_inj]
  unfold subtrees_backfill
  have h1 : ([big_tree].map btree.bid) = [1] := rfl
  rw [h1]
  have h2 : subtrees_backfill_sync 0 (fun _ => 0) false SUPERBLOCK_ID [1]
      = [event.recency_batch [1], event.acq_issue 1,
         event.release SUPERBLOCK_ID] := rfl
  rw [h2]
  have h3 : spawned_tasks 0 (fun _ => 0) false 0 [big_tree]
      = spawn_subtree_backfill_task 0 (fun _ => 0) false 0 big_tree := by
    rw [spawned_tasks, if_pos ⟨rfl, Nat.zero_le _⟩]
    have hnil : spawned_tasks 0 (fun _ => 0) false 0 ([] : List btree) = [] := rfl
    rw [hnil, List.append_nil]
  rw [h3]
  have h4 : spawn_subtree_backfill_task 0 (fun _ => 0) false 0 big_tree
      = event.acq_done 1 ::
          (subtrees_backfill_sync 0 (fun _ => 0) false 1 big_ids
            ++ spawned_tasks 0 (fun _ => 0) false 1 big_children) := by
    show spawn_subtree_backfill_task 0 (fun _ => 0) false 0
        (btree.node 1 big_children) = _
    rw [spawn_subtree_backfill_task, big_map_bid]
  rw [h4, big_sync_eq]
  unfold big_issue_point SUPERBLOCK_ID
  simp [List.append_assoc]

/-- Value of `held_count + pending_count` at the issue point: the root held plus
all `big_n` children pending. -/
theorem big_live_eq : live_after big_issue_point = 50011 := by
  unfold big_issue_point
  rw [live_after_append]
  have h1 : live_after [event.acq_issue 0, event.acq_done 0, event.read_root 1,
      event.recency_batch [1], event.acq_issue 1, event.release 0,
      event.acq_done 1, event.recency_batch big_ids] = 1 := rfl
  have h2 : live_after (big_ids.map event.acq_issue) = (big_n : Int) := by
    unfold live_after
    rw [List.map_map]
    have hc : (live_delta ∘ event.acq_issue) = fun _ => (1 : Int) := rfl
    rw [hc, sum_map_one]
    unfold big_ids
    rw [List.length_map, List.length_range]
  rw [h1, h2]
  norm_num [big_n]

/-- C3 refuted on the code: the driver of `subtrees_backfill` issues the
whole batch of child acquisitions with no admission-cap check (the
constants of src lines 7-8 are used nowhere in the traversal), so at the
instant all 50010 children of the root are pending,
`held_count + pending_count` is 50011, above
`BACKFILLING_MAX_BREADTH_FIRST_BLOCKS` plus the current path depth (2:
superblock to root to children). -/
theorem cap_check_missing_live_exceeds_cap :
    (∃ tail, big_run = some (big_issue_point ++ tail)) ∧
    live_after big_issue_point = 50011 ∧
    (BACKFILLING_MAX_BREADTH_FIRST_BLOCKS : Int) + 2
      < live_after big_issue_point := by
  refine ⟨⟨_, big_run_eq⟩, big_live_eq, ?_⟩
  rw [big_live_eq]
  norm_num [BACKFILLING_MAX_BREADTH_FIRST_BLOCKS]

/-- The C7 tree: a root with one live leaf child. -/
def c7_tree : btree := btree.node 1 [btree.leaf 2 [⟨5, 6, 12⟩]]

/-- The C7 session trace at horizon 8 with all recencies 12. -/
def c7_trace : List event :=
  [event.acq_issue 0, event.acq_done 0, event.read_root 1,
   event.recency_batch [1], event.acq_issue 1, event.release 0,
   event.acq_done 1, event.recency_batch [2], event.acq_issue 2,
   event.release 1, event.acq_done 2, event.emit 5 6 12, event.release 2]

/-- C7 counterexample: in the concrete session on `c7_tree`, the root
block id is read at index 2, but the superblock release sits at index 5 —
after the root's recency fetch (index 3) and the root's acquisition issue
(index 4).  The superblock lock is therefore not released immediately
after the root id extraction: it is still held while the root's subtree
traversal (recency check, acquisition issue) is under way, because
`spawn_btree_backfill` passes the superblock lock to `subtrees_backfill`
as the parent, which releases it only after the wait loop. -/
theorem superblock_not_released_immediately :
    spawn_btree_backfill 8 (fun _ => 12) false ⟨1⟩ c7_tree = some c7_trace ∧
    c7_trace.findIdx (fun e => e == event.read_root 1) = 2 ∧
    c7_trace.findIdx (fun e => match e with
      | event.recency_batch _ => true
      | _ => false) = 3 ∧
    c7_trace.findIdx (fun e => e == event.acq_issue 1) = 4 ∧
    c7_trace.findIdx (fun e => e == event.release SUPERBLOCK_ID) = 5 :=
  ⟨by decide, by decide, by decide, by decide, by decide⟩

/-- C7 amended: on a non-empty tree whose root passes the recency filter,
the superblock lock is released directly after the root's recency has been
fetched and the root's acquisition issued — that is, once the root is
acquisition-pending — and before the root's acquisition completes, hence
before any child of the root is processed. -/
theorem superblock_released_after_root_pending
    (since_when : repli_timestamp) (rec : block_id_t → repli_timestamp)
    (sb : btree_superblock_t) (root : btree)
    (h1 : sb.root_block = root.bid) (h2 : root.bid ≠ SUPERBLOCK_ID)
    (h3 : root.bid ≠ NULL_BLOCK_ID) (h4 : since_when ≤ rec root.bid) :
    spawn_btree_backfill since_when rec false sb root
      = some ([event.acq_issue SUPERBLOCK_ID, event.acq_done SUPERBLOCK_ID,
               event.read_root root.bid, event.recency_batch [root.bid],
               event.acq_issue root.bid, event.release SUPERBLOCK_ID]
          ++ spawn_subtree_backfill_task since_when rec false 0 root) ∧
    (∃ tail, spawn_subtree_backfill_task since_when rec false 0 root
        = event.acq_done root.bid :: tail) := by
  constructor
  · unfold spawn_btree_backfill
    rw [h1, if_neg h2, if_neg h3, Option.some_inj]
    unfold subtrees_backfill
    have hm : [root].map btree.bid = [root.bid] := rfl
    rw [hm]
    have hsync : subtrees_backfill_sync since_when rec false SUPERBLOCK_ID [root.bid]
        = [event.recency_batch [root.bid], event.acq_issue root.bid,
           event.release SUPERBLOCK_ID] := by
      unfold subtrees_backfill_sync
      rw [List.map_cons, List.map_nil, if_pos h4]
      rfl
    rw [hsync]
    have hsp : spawned_tasks since_when rec false 0 [root]
        = spawn_subtree_backfill_task since_when rec false 0 root := by
      rw [spawned_tasks, if_pos ⟨rfl, h4⟩]
      have hnil : spawned_tasks since_when rec false 0 ([] : List btree) = [] := rfl
      rw [hnil, List.append_nil]
    rw [hsp]
    simp [List.append_assoc]
  · cases root with
    | leaf i es => exact ⟨_, rfl⟩
    | node i cs => exact ⟨_, rfl⟩

/-- Witness for the amended C7 at the concrete `c7_tree` session. -/
theorem superblock_released_after_root_pending_witness :
    spawn_btree_backfill 8 (fun _ => 12) false ⟨1⟩ c7_tree
      = some ([event.acq_issue SUPERBLOCK_ID, event.acq_done SUPERBLOCK_ID,
               event.read_root c7_tree.bid, event.recency_batch [c7_tree.bid],
               event.acq_issue c7_tree.bid, event.release SUPERBLOCK_ID]
          ++ spawn_subtree_backfill_task 8 (fun _ => 12) false 0 c7_tree) ∧
    (∃ tail, spawn_subtree_backfill_task 8 (fun _ => 12) false 0 c7_tree
        = event.acq_done c7_tree.bid :: tail) :=
  superblock_released_after_root_pending 8 (fun _ => 12) ⟨1⟩ c7_tree rfl
    (by decide) (by decide) (by decide)

end Backfill
